import Mathlib

/-!
Verification of the password-strength validator component
(src/components/PassWordStrengthValidator.tsx).

The component's logical core is the pure function `evaluatePassword`,
which tests a password string against seven boolean criteria, counts
how many hold, classifies the count into a strength level, and builds
a feedback list of fixed message strings.  Around it sits an input
sanitizer (`handlePasswordChange`) that rejects candidate strings
longer than 25 characters or containing non-ASCII characters.

Strings are modelled as Lean `String` (a list of Unicode scalar
values).  JavaScript regular-expression character classes are
translated to explicit character predicates; the JavaScript `.`
metacharacter does not match line terminators (LF, CR, U+2028,
U+2029), which the model reproduces in `hasRepeatedRun`.
-/

namespace PSV

/-- The seven named boolean criteria (interface StrengthCriteria). -/
structure StrengthCriteria where
  length : Bool
  uppercase : Bool
  lowercase : Bool
  numbers : Bool
  specialChars : Bool
  noRepeatedChars : Bool
  noCommonPatterns : Bool
deriving DecidableEq

/-- Strength level: 'Weak' | 'Medium' | 'Strong'. -/
inductive Level where
  | Weak : Level
  | Medium : Level
  | Strong : Level
deriving DecidableEq

/-- The overall evaluation result (interface Strength). -/
structure Strength where
  level : Level
  score : Nat
  maxScore : Nat
  criteria : StrengthCriteria
  feedback : List String
deriving DecidableEq

/-- The component's configuration props, with the source's defaults. -/
structure Config where
  minLength : Nat := 8
  requireUppercase : Bool := true
  requireLowercase : Bool := true
  requireNumbers : Bool := true
  requireSpecialChars : Bool := true
  preventRepeatedChars : Bool := true
  preventCommonPatterns : Bool := true
deriving DecidableEq

/-- The default configuration (all props left at their defaults). -/
def defaultConfig : Config := {}

/-- A configuration with the default minimum length but every boolean
flag turned off. -/
def flagsOffConfig : Config where
  minLength := 8
  requireUppercase := false
  requireLowercase := false
  requireNumbers := false
  requireSpecialChars := false
  preventRepeatedChars := false
  preventCommonPatterns := false

/-- Common weak patterns to check against (const commonPatterns). -/
def commonPatterns : List String :=
  ["123456", "password", "qwerty", "abc123", "abcdefghijklmnopqrstuvwxyz", "123456789"]

/-- Code points of the special-character class in the source regex,
in source order: exclamation, at, hash, dollar, percent, caret,
ampersand, asterisk, open paren, close paren, comma, dot, question,
double quote, colon, open brace, close brace, vertical bar,
less-than, greater-than. -/
def specialCharCodes : List Nat :=
  [33, 64, 35, 36, 37, 94, 38, 42, 40, 41, 44, 46, 63, 34, 58, 123, 125, 124, 60, 62]

/-- Membership in the special-character class of the source regex. -/
def isSpecialChar (c : Char) : Bool :=
  specialCharCodes.contains c.toNat

/-- The regex class A-Z. -/
def isUpperChar (c : Char) : Bool :=
  65 ≤ c.toNat && c.toNat ≤ 90

/-- The regex class a-z. -/
def isLowerChar (c : Char) : Bool :=
  97 ≤ c.toNat && c.toNat ≤ 122

/-- The regex class for a digit, 0-9. -/
def isDigitChar (c : Char) : Bool :=
  48 ≤ c.toNat && c.toNat ≤ 57

/-- JavaScript line terminators: LF, CR, U+2028, U+2029.  The regex
metacharacter for any character does not match these. -/
def isLineTerminator (c : Char) : Bool :=
  c.toNat = 10 || c.toNat = 13 || c.toNat = 8232 || c.toNat = 8233

/-- The repeated-run regex: it matches when some character that is
not a line terminator occurs at least three times consecutively
(a captured any-character followed by two or more backreferences). -/
def hasRepeatedRun : List Char → Bool
  | a :: b :: c :: rest =>
      (!isLineTerminator a && a == b && b == c) || hasRepeatedRun (b :: c :: rest)
  | _ => false

/-- ASCII-range lowercasing, as JavaScript toLowerCase acts on the
characters A-Z (the only case mapping relevant to the ASCII-only
strings the component stores). -/
def jsToLower (s : List Char) : List Char :=
  s.map (fun c => if 65 ≤ c.toNat && c.toNat ≤ 90 then Char.ofNat (c.toNat + 32) else c)

/-- Whether the pattern occurs at the start of the string. -/
def startsWithL : List Char → List Char → Bool
  | [], _ => true
  | _ :: _, [] => false
  | p :: ps, s :: ss => p == s && startsWithL ps ss

/-- Whether the pattern occurs as a contiguous substring
(String.prototype.includes). -/
def containsSub (pat : List Char) : List Char → Bool
  | [] => startsWithL pat []
  | a :: rest => startsWithL pat (a :: rest) || containsSub pat rest

/-- The seven criteria values in declaration order, as
Object.values(criteria) produces them. -/
def criteriaList (c : StrengthCriteria) : List Bool :=
  [c.length, c.uppercase, c.lowercase, c.numbers, c.specialChars,
   c.noRepeatedChars, c.noCommonPatterns]

/-- The seven criteria computed from a password (the criteria record
built inside evaluatePassword). -/
def criteriaOf (minLength : Nat) (pwd : String) : StrengthCriteria where
  length := decide (pwd.length ≥ minLength)
  uppercase := pwd.data.any isUpperChar
  lowercase := pwd.data.any isLowerChar
  numbers := pwd.data.any isDigitChar
  specialChars := pwd.data.any isSpecialChar
  noRepeatedChars := !hasRepeatedRun pwd.data
  noCommonPatterns := !commonPatterns.any (fun pattern => containsSub pattern.data (jsToLower pwd.data))

/-- The feedback list built by the chain of conditional pushes in
evaluatePassword, in source order. -/
def buildFeedback (cfg : Config) (c : StrengthCriteria) : List String :=
  (if !c.length then ["Minimum " ++ toString cfg.minLength ++ " characters"] else []) ++
  (if cfg.requireUppercase && !c.uppercase then ["Add uppercase letters"] else []) ++
  (if cfg.requireLowercase && !c.lowercase then ["Add lowercase letters"] else []) ++
  (if cfg.requireNumbers && !c.numbers then ["Add numbers"] else []) ++
  (if cfg.requireSpecialChars && !c.specialChars then ["Add special characters"] else []) ++
  (if cfg.preventRepeatedChars && !c.noRepeatedChars then ["Avoid repeated characters"] else []) ++
  (if cfg.preventCommonPatterns && !c.noCommonPatterns then ["Avoid common patterns"] else [])

/-- The strength level derived from the score: starts Weak, becomes
Strong when the score is at least 6, else Medium when at least 4. -/
def levelOf (score : Nat) : Level :=
  if score ≥ 6 then Level.Strong
  else if score ≥ 4 then Level.Medium
  else Level.Weak

/-- Core logic to evaluate a password based on the selected rules
(const evaluatePassword in the component). -/
def evaluatePassword (cfg : Config) (pwd : String) : Strength :=
  let criteria := criteriaOf cfg.minLength pwd
  let score := (criteriaList criteria).count true
  let feedback := buildFeedback cfg criteria
  let level := levelOf score
  { level := level, score := score, maxScore := 7, criteria := criteria, feedback := feedback }

/-- Helper to restrict input to ASCII characters (const isAsciiOnly):
every character has code point at most 127. -/
def isAsciiOnly (s : String) : Bool :=
  s.data.all (fun c => c.toNat ≤ 127)

/-- Whether the sanitizer accepts a candidate string (the guard in
handlePasswordChange): not longer than 25 characters and ASCII-only. -/
def accept (text : String) : Bool :=
  !(text.length > 25 || !isAsciiOnly text)

/-- The state transition on the stored password performed by
handlePasswordChange: a rejected candidate leaves the stored value
unchanged, an accepted one replaces it. -/
def handlePasswordChange (current : String) (text : String) : String :=
  if text.length > 25 || !isAsciiOnly text then current else text

/-- The stored password values reachable by the component: the
initial empty string, and anything reachable by a password-change
step from a reachable value. -/
inductive Reachable : String → Prop
  | init : Reachable ""
  | step {s : String} (t : String) : Reachable s → Reachable (handlePasswordChange s t)

/-- A run of three consecutive occurrences of the character starting
at position i of the string. -/
def RunAt (s : List Char) (i : Nat) (a : Char) : Prop :=
  s[i]? = some a ∧ s[i+1]? = some a ∧ s[i+2]? = some a

/-- The ordered feedback rule table described by the specification:
for each criterion, whether its configuration flag is enabled (the
length rule is always enabled), whether the criterion passed, and the
fixed message to emit on an enabled failure. -/
def feedbackTable (cfg : Config) (c : StrengthCriteria) : List (Bool × Bool × String) :=
  [(true, c.length, "Minimum " ++ toString cfg.minLength ++ " characters"),
   (cfg.requireUppercase, c.uppercase, "Add uppercase letters"),
   (cfg.requireLowercase, c.lowercase, "Add lowercase letters"),
   (cfg.requireNumbers, c.numbers, "Add numbers"),
   (cfg.requireSpecialChars, c.specialChars, "Add special characters"),
   (cfg.preventRepeatedChars, c.noRepeatedChars, "Avoid repeated characters"),
   (cfg.preventCommonPatterns, c.noCommonPatterns, "Avoid common patterns")]

/-- The feedback list as the specification words it: the rule table
filtered to enabled-and-failed rows, projected to the messages. -/
def specFeedback (cfg : Config) (c : StrengthCriteria) : List String :=
  ((feedbackTable cfg c).filter (fun e => e.1 && !e.2.1)).map (fun e => e.2.2)

/-- A list of length at most two has no three-character run. -/
theorem not_RunAt_short {s : List Char} (hs : s.length ≤ 2) (i : Nat) (a : Char) :
    ¬ RunAt s i a := by
  intro h
  have h3 := h.2.2
  rw [List.getElem?_eq_none (by omega)] at h3
  exact Option.noConfusion h3

/-- Shifting a run across a cons cell. -/
theorem RunAt_cons_succ (x : Char) (s : List Char) (i : Nat) (a : Char) :
    RunAt (x :: s) (i+1) a ↔ RunAt s i a := by
  simp [RunAt]

/-- The repeated-run test succeeds exactly when some position starts
a run of three identical characters that are not line terminators. -/
theorem hasRepeatedRun_iff (s : List Char) :
    hasRepeatedRun s = true ↔ ∃ i a, RunAt s i a ∧ isLineTerminator a = false := by
  induction s with
  | nil =>
    simp only [hasRepeatedRun]
    constructor
    · intro h; exact Bool.noConfusion h
    · rintro ⟨i, a, hr, -⟩; exact absurd hr (not_RunAt_short (by simp) i a)
  | cons x tail ih =>
    rcases tail with - | ⟨y, tail2⟩
    · simp only [hasRepeatedRun]
      constructor
      · intro h; exact Bool.noConfusion h
      · rintro ⟨i, a, hr, -⟩; exact absurd hr (not_RunAt_short (by simp) i a)
    rcases tail2 with - | ⟨z, rest⟩
    · simp only [hasRepeatedRun]
      constructor
      · intro h; exact Bool.noConfusion h
      · rintro ⟨i, a, hr, -⟩; exact absurd hr (not_RunAt_short (by simp) i a)
    · constructor
      · intro h
        rw [hasRepeatedRun, Bool.or_eq_true] at h
        rcases h with h0 | hrec
        · rw [Bool.and_eq_true, Bool.and_eq_true] at h0
          obtain ⟨⟨hlt, hxy⟩, hyz⟩ := h0
          refine ⟨0, x, ⟨rfl, ?_, ?_⟩, ?_⟩
          · simpa using (beq_iff_eq.mp hxy).symm
          · have := (beq_iff_eq.mp hxy).trans (beq_iff_eq.mp hyz)
            simpa using this.symm
          · exact Bool.not_eq_true' .. |>.mp hlt
        · obtain ⟨i, a, hr, hlt⟩ := ih.mp hrec
          exact ⟨i + 1, a, (RunAt_cons_succ x (y :: z :: rest) i a).mpr hr, hlt⟩
      · rintro ⟨i, a, hr, hlt⟩
        rw [hasRepeatedRun, Bool.or_eq_true]
        cases i with
        | zero =>
          obtain ⟨h0, h1, h2⟩ := hr
          simp only [List.getElem?_cons_zero, List.getElem?_cons_succ,
            Option.some.injEq] at h0 h1 h2
          left
          subst h0 h1 h2
          simp [hlt]
        | succ j =>
          right
          exact ih.mpr ⟨j, a, (RunAt_cons_succ x (y :: z :: rest) j a).mp hr, hlt⟩

/-- Correctness of the starts-with test. -/
theorem startsWithL_iff (pat s : List Char) :
    startsWithL pat s = true ↔ ∃ rest, s = pat ++ rest := by
  induction pat generalizing s with
  | nil => simp [startsWithL]
  | cons p ps ih =>
    rcases s with - | ⟨a, as⟩
    · simp [startsWithL]
    · rw [startsWithL, Bool.and_eq_true, beq_iff_eq, ih]
      constructor
      · rintro ⟨h, rest, hrest⟩; exact ⟨rest, by simp [h, hrest]⟩
      · rintro ⟨rest, hrest⟩
        rw [List.cons_append, List.cons.injEq] at hrest
        exact ⟨hrest.1.symm, rest, hrest.2⟩

/-- Correctness of the substring test: it succeeds exactly when the
pattern occurs contiguously inside the string. -/
theorem containsSub_iff (pat s : List Char) :
    containsSub pat s = true ↔ ∃ l r, s = l ++ pat ++ r := by
  induction s with
  | nil =>
    rw [containsSub, startsWithL_iff]
    constructor
    · rintro ⟨rest, h⟩; exact ⟨[], rest, by simpa using h⟩
    · rintro ⟨l, r, h⟩
      have hp : pat = [] := by
        have hlen := congrArg List.length h
        simp at hlen
        exact List.length_eq_zero.mp (by omega)
      exact ⟨[], by simp [hp]⟩
  | cons a as ih =>
    rw [containsSub, Bool.or_eq_true, startsWithL_iff, ih]
    constructor
    · rintro (⟨rest, h⟩ | ⟨l, r, h⟩)
      · exact ⟨[], rest, by simpa using h⟩
      · exact ⟨a :: l, r, by simp [h]⟩
    · rintro ⟨l, r, h⟩
      rcases l with - | ⟨b, bs⟩
      · exact Or.inl ⟨r, by simpa using h⟩
      · rw [List.cons_append, List.cons_append, List.cons.injEq] at h
        exact Or.inr ⟨bs, r, h.2⟩

/-- One step of the table filter-and-project. -/
theorem specFeedback_cons (e : Bool × Bool × String) (rest : List (Bool × Bool × String)) :
    ((e :: rest).filter (fun x => x.1 && !x.2.1)).map (fun x => x.2.2) =
      (if e.1 && !e.2.1 then [e.2.2] else []) ++
        ((rest.filter (fun x => x.1 && !x.2.1)).map (fun x => x.2.2)) := by
  by_cases h : (e.1 && !e.2.1) = true <;> simp [List.filter_cons, h]

/-- The sequential feedback construction of the code agrees with the
specification's filtered-table description. -/
theorem buildFeedback_eq_specFeedback (cfg : Config) (c : StrengthCriteria) :
    buildFeedback cfg c = specFeedback cfg c := by
  rw [specFeedback, feedbackTable]
  rw [specFeedback_cons, specFeedback_cons, specFeedback_cons, specFeedback_cons,
    specFeedback_cons, specFeedback_cons, specFeedback_cons]
  simp [buildFeedback]

/-- The level is Strong exactly on scores of at least 6. -/
theorem levelOf_strong_iff (n : Nat) : levelOf n = Level.Strong ↔ 6 ≤ n := by
  rw [levelOf]
  split_ifs with h1 h2 <;> simp_all

/-- The level is Medium exactly on scores in the interval from 4 to 5. -/
theorem levelOf_medium_iff (n : Nat) : levelOf n = Level.Medium ↔ 4 ≤ n ∧ n < 6 := by
  rw [levelOf]
  split_ifs with h1 h2 <;> simp_all

/-- The level is Weak exactly on scores below 4. -/
theorem levelOf_weak_iff (n : Nat) : levelOf n = Level.Weak ↔ n < 4 := by
  rw [levelOf]
  split_ifs with h1 h2 <;> simp_all
  omega

/-- The criteria field of the result is the criteria record computed
from the minimum length and the password. -/
theorem evaluatePassword_criteria (cfg : Config) (pwd : String) :
    (evaluatePassword cfg pwd).criteria = criteriaOf cfg.minLength pwd := rfl

/-- The score field of the result is the count of true criteria. -/
theorem evaluatePassword_score (cfg : Config) (pwd : String) :
    (evaluatePassword cfg pwd).score =
      (criteriaList (criteriaOf cfg.minLength pwd)).count true := rfl

/-- The level field of the result is the threshold classification of
the score. -/
theorem evaluatePassword_level (cfg : Config) (pwd : String) :
    (evaluatePassword cfg pwd).level =
      levelOf ((criteriaList (criteriaOf cfg.minLength pwd)).count true) := rfl

/-- The feedback field of the result is the sequentially built
feedback list. -/
theorem evaluatePassword_feedback (cfg : Config) (pwd : String) :
    (evaluatePassword cfg pwd).feedback =
      buildFeedback cfg (criteriaOf cfg.minLength pwd) := rfl

/-- Claim C1: for every password, the score equals the number of true
entries among the seven criteria booleans, the score lies between 0
and 7, and the maxScore field is the constant 7. -/
theorem score_counts_criteria (cfg : Config) (pwd : String) :
    (evaluatePassword cfg pwd).score =
      (criteriaList (evaluatePassword cfg pwd).criteria).count true ∧
    0 ≤ (evaluatePassword cfg pwd).score ∧
    (evaluatePassword cfg pwd).score ≤ 7 ∧
    (evaluatePassword cfg pwd).maxScore = 7 := by
  refine ⟨rfl, Nat.zero_le _, ?_, rfl⟩
  rw [evaluatePassword_score]
  simpa using List.count_le_length true (criteriaList (criteriaOf cfg.minLength pwd))

/-- Claim C2: for every password and configuration, the level is
Strong exactly when the score is at least 6, Medium exactly when the
score is between 4 and 5, and Weak exactly when it is below 4; the
thresholds are independent of the configuration. -/
theorem level_thresholds (cfg : Config) (pwd : String) :
    ((evaluatePassword cfg pwd).level = Level.Strong ↔
      6 ≤ (evaluatePassword cfg pwd).score) ∧
    ((evaluatePassword cfg pwd).level = Level.Medium ↔
      4 ≤ (evaluatePassword cfg pwd).score ∧ (evaluatePassword cfg pwd).score < 6) ∧
    ((evaluatePassword cfg pwd).level = Level.Weak ↔
      (evaluatePassword cfg pwd).score < 4) := by
  rw [evaluatePassword_level, evaluatePassword_score]
  exact ⟨levelOf_strong_iff _, levelOf_medium_iff _, levelOf_weak_iff _⟩

/-- Claim C3: the sanitizer accepts a candidate exactly when it has
at most 25 characters, all in the ASCII range; a rejected candidate
leaves the stored value unchanged and an accepted one replaces it;
25 repetitions of the letter a are accepted and 26 are rejected. -/
theorem sanitizer_accepts_iff :
    (∀ cur t : String,
      (accept t = true ↔ t.length ≤ 25 ∧ ∀ c ∈ t.data, c.toNat ≤ 127) ∧
      (accept t = false → handlePasswordChange cur t = cur) ∧
      (accept t = true → handlePasswordChange cur t = t)) ∧
    accept (String.mk (List.replicate 25 'a')) = true ∧
    accept (String.mk (List.replicate 26 'a')) = false := by
  refine ⟨fun cur t => ⟨?_, ?_, ?_⟩, by decide, by decide⟩
  · rw [accept, isAsciiOnly]
    simp [List.all_eq_true, Nat.not_lt]
  · intro hf
    rw [accept] at hf
    rw [Bool.not_eq_false'] at hf
    rw [handlePasswordChange, if_pos hf]
  · intro ht
    rw [accept, Bool.not_eq_true'] at ht
    rw [handlePasswordChange, if_neg (by simp [ht])]

/-- Companion instance for claim C3: the sanitizer theorem applied at
concrete inputs, retaining the stored value on a rejected candidate
and adopting an accepted one. -/
theorem sanitizer_accepts_iff_witness :
    handlePasswordChange "x" (String.mk (List.replicate 26 'a')) = "x" ∧
    handlePasswordChange "x" "abc" = "abc" :=
  ⟨(sanitizer_accepts_iff.1 "x" (String.mk (List.replicate 26 'a'))).2.1 (by decide),
   (sanitizer_accepts_iff.1 "x" "abc").2.2 (by decide)⟩

/-- Claim C4, counterexample: a password of three newline characters
contains a run of the same character three times consecutively, yet
the noRepeatedChars criterion holds, because the any-character
metacharacter of the source regex does not match line terminators. -/
theorem noRepeatedChars_newline_counterexample :
    (evaluatePassword defaultConfig (String.mk ['\n', '\n', '\n'])).criteria.noRepeatedChars
      = true ∧
    RunAt (String.mk ['\n', '\n', '\n']).data 0 '\n' :=
  ⟨by decide, rfl, rfl, rfl⟩

/-- Claim C4, amended: for every password, the noRepeatedChars
criterion holds exactly when every run of three consecutive identical
characters (case-sensitive literal equality) consists of a line
terminator, i.e. there is no run of three or more of any character
other than LF, CR, U+2028, U+2029. -/
theorem noRepeatedChars_iff (cfg : Config) (pwd : String) :
    (evaluatePassword cfg pwd).criteria.noRepeatedChars = true ↔
      ∀ i a, RunAt pwd.data i a → isLineTerminator a = true := by
  rw [evaluatePassword_criteria]
  show (!hasRepeatedRun pwd.data) = true ↔ _
  rw [Bool.not_eq_true']
  constructor
  · intro h i a hr
    by_contra hlt
    rw [Bool.not_eq_true] at hlt
    have hrun : hasRepeatedRun pwd.data = true :=
      (hasRepeatedRun_iff pwd.data).mpr ⟨i, a, hr, hlt⟩
    rw [h] at hrun
    exact Bool.noConfusion hrun
  · intro h
    by_contra hne
    rw [Bool.not_eq_false] at hne
    obtain ⟨i, a, hr, hlt⟩ := (hasRepeatedRun_iff pwd.data).mp hne
    rw [h i a hr] at hlt
    exact Bool.noConfusion hlt

/-- Claim C5: the feedback list is exactly the specification's
ordered rule table, filtered to the rows whose criterion failed and
whose configuration flag is enabled (length being always enabled),
projected to the fixed message strings. -/
theorem feedback_matches_spec (cfg : Config) (pwd : String) :
    (evaluatePassword cfg pwd).feedback =
      specFeedback cfg (evaluatePassword cfg pwd).criteria := by
  rw [evaluatePassword_feedback, evaluatePassword_criteria]
  exact buildFeedback_eq_specFeedback cfg (criteriaOf cfg.minLength pwd)

/-- Claim C6: two configurations agreeing on the minimum length give
identical criteria, score and level for every password; the boolean
flags influence only the feedback list. -/
theorem criteria_config_independent (pwd : String) (cfg1 cfg2 : Config)
    (h : cfg1.minLength = cfg2.minLength) :
    (evaluatePassword cfg1 pwd).criteria = (evaluatePassword cfg2 pwd).criteria ∧
    (evaluatePassword cfg1 pwd).score = (evaluatePassword cfg2 pwd).score ∧
    (evaluatePassword cfg1 pwd).level = (evaluatePassword cfg2 pwd).level := by
  refine ⟨?_, ?_, ?_⟩
  · rw [evaluatePassword_criteria, evaluatePassword_criteria, h]
  · rw [evaluatePassword_score, evaluatePassword_score, h]
  · rw [evaluatePassword_level, evaluatePassword_level, h]

/-- Companion instance for claim C6: the default configuration and
the all-flags-off configuration classify a concrete password
identically. -/
theorem criteria_config_independent_witness :
    (evaluatePassword defaultConfig "Pass123!").criteria
      = (evaluatePassword flagsOffConfig "Pass123!").criteria ∧
    (evaluatePassword defaultConfig "Pass123!").score
      = (evaluatePassword flagsOffConfig "Pass123!").score ∧
    (evaluatePassword defaultConfig "Pass123!").level
      = (evaluatePassword flagsOffConfig "Pass123!").level :=
  criteria_config_independent "Pass123!" defaultConfig flagsOffConfig rfl

/-- Claim C7: the noCommonPatterns criterion holds exactly when the
lowercased password contains no blocklist entry as a contiguous
substring; in particular the password password123 fails it and its
feedback contains the common-patterns message. -/
theorem noCommonPatterns_iff (cfg : Config) (pwd : String) :
    ((evaluatePassword cfg pwd).criteria.noCommonPatterns = true ↔
      ∀ pat ∈ commonPatterns, ¬ ∃ l r, jsToLower pwd.data = l ++ pat.data ++ r) ∧
    (evaluatePassword defaultConfig "password123").criteria.noCommonPatterns = false ∧
    "Avoid common patterns" ∈ (evaluatePassword defaultConfig "password123").feedback := by
  refine ⟨?_, by decide, by decide⟩
  rw [evaluatePassword_criteria]
  show (!commonPatterns.any fun pattern => containsSub pattern.data (jsToLower pwd.data))
      = true ↔ _
  rw [Bool.not_eq_true']
  simp only [Bool.eq_false_iff, ne_eq, List.any_eq_true, not_exists, not_and,
    containsSub_iff]

/-- Claim C8: the specialChars criterion holds exactly when some
character of the password is in the literal special-character set,
and the numbers, uppercase and lowercase criteria hold exactly when
some character is a digit, an uppercase letter, or a lowercase
letter respectively. -/
theorem char_class_criteria (cfg : Config) (pwd : String) :
    ((evaluatePassword cfg pwd).criteria.specialChars = true ↔
      ∃ c ∈ pwd.data, c.toNat ∈ specialCharCodes) ∧
    ((evaluatePassword cfg pwd).criteria.numbers = true ↔
      ∃ c ∈ pwd.data, 48 ≤ c.toNat ∧ c.toNat ≤ 57) ∧
    ((evaluatePassword cfg pwd).criteria.uppercase = true ↔
      ∃ c ∈ pwd.data, 65 ≤ c.toNat ∧ c.toNat ≤ 90) ∧
    ((evaluatePassword cfg pwd).criteria.lowercase = true ↔
      ∃ c ∈ pwd.data, 97 ≤ c.toNat ∧ c.toNat ≤ 122) := by
  rw [evaluatePassword_criteria]
  refine ⟨?_, ?_, ?_, ?_⟩
  · show pwd.data.any isSpecialChar = true ↔ _
    simp [List.any_eq_true, isSpecialChar]
  · show pwd.data.any isDigitChar = true ↔ _
    simp [List.any_eq_true, isDigitChar]
  · show pwd.data.any isUpperChar = true ↔ _
    simp [List.any_eq_true, isUpperChar]
  · show pwd.data.any isLowerChar = true ↔ _
    simp [List.any_eq_true, isLowerChar]

/-- Claim C9: under the default configuration, the empty password
fails length, uppercase, lowercase, numbers and specialChars, passes
noRepeatedChars and noCommonPatterns, and so scores 2 with level
Weak. -/
theorem empty_password_result :
    (evaluatePassword defaultConfig "").criteria =
      { length := false, uppercase := false, lowercase := false, numbers := false,
        specialChars := false, noRepeatedChars := true, noCommonPatterns := true } ∧
    (evaluatePassword defaultConfig "").score = 2 ∧
    (evaluatePassword defaultConfig "").level = Level.Weak := by
  decide

/-- Claim C10: every stored password value reachable from the initial
empty string through password-change steps has at most 25 characters,
all in the ASCII range. -/
theorem stored_password_invariant (s : String) (h : Reachable s) :
    s.length ≤ 25 ∧ isAsciiOnly s = true := by
  induction h with
  | init => exact ⟨by decide, by decide⟩
  | step t hr ih =>
    rw [handlePasswordChange]
    split
    · exact ih
    · next hcond =>
      simp only [Bool.or_eq_true, decide_eq_true_eq, Bool.not_eq_true', not_or,
        Nat.not_lt, Bool.not_eq_false] at hcond
      exact ⟨hcond.1, hcond.2⟩

/-- Companion instance for claim C10: the invariant applied to the
initial state. -/
theorem stored_password_invariant_witness :
    "".length ≤ 25 ∧ isAsciiOnly "" = true :=
  stored_password_invariant "" Reachable.init

end PSV
